import Mathlib

/-!
Shallow embedding of the layout-aware PDF redaction engine of
`bp_ecg_etl` (source: `src/bp_ecg_etl/pdf_anonymizer.py` and
`src/bp_ecg_etl/config.py`), together with proofs settling the frozen
claims about its specification.

Modelling conventions:
* Python floats are modelled as rationals (`ℚ`); the geometry involved
  uses only `+ - * / min max abs round`, all exact on the inputs at hand.
* Python `list.sort(key=...)` is a stable sort by a key; it is modelled
  by a structural stable insertion sort (`sortBy`) by the corresponding
  total boolean preorder.  Any two stable sorts by the same preorder
  agree, so this is extensionally the Python sort.
* Python `min(...)`/`max(...)` over an empty sequence raises; the
  embedding of `rect_of_words` therefore returns `Option Rect`, `none`
  standing for that exception.
* `structlog` calls are modelled as emitted `LogEntry` values; the
  structured keyword arguments of a call are dropped, keeping the
  fixed message string and level.
-/

/-- Word as produced by the PDF collaborator: bounding box and text
(`page.get_text("words")` tuples `(x0, y0, x1, y1, text)`). -/
structure Word where
  x0 : ℚ
  y0 : ℚ
  x1 : ℚ
  y1 : ℚ
  text : String
deriving DecidableEq

/-- Rectangle with four scalar coordinates, as `fitz.Rect`. -/
structure Rect where
  x0 : ℚ
  y0 : ℚ
  x1 : ℚ
  y1 : ℚ
deriving DecidableEq

/- Configuration constants from `src/bp_ecg_etl/config.py` (the
environment-variable defaults). -/

/-- Default of env `LINE_TOLERANCE` (config.py line 15). -/
def LINE_TOLERANCE : ℚ := 1

/-- Default of env `PREVLINE_TOLERANCE` (config.py line 16). -/
def PREVLINE_TOLERANCE : ℚ := 10

/-- Default of env `PADDING` (config.py line 17). -/
def PADDING : ℚ := 1

/-- Labels whose following values are redacted (config.py lines 21-29). -/
def LABELS_SAME_LINE : List String :=
  ["Nome:", "CPF:", "RG:",
   "Reg. Clínico:", "Registro Clínico:",
   "Convênio:", "Convenio:",
   "Responsável:", "Responsavel:",
   "Solicitante:",
   "Médico Responsável:", "Medico Responsavel:", "Idade:",
   "CRM:", "Médico:"]

/-- Labels whose following values are preserved (config.py lines 32-37). -/
def KEEP_LABELS : List String :=
  ["Sexo:", "Data:", "Hora:",
   "Data de Nascimento:",
   "Frequência cardíaca:", "Intervalo PR:", "Duração QRS:",
   "Intervalo QT/QTc:", "Eixo P-QRS-T:", "Interpretação:"]

/-- Registration-number tokens (config.py line 39). -/
def CRM_TOKENS : List String := ["CRM", "CRM:", "crm"]

/-- Page-1 coordinate redaction areas (config.py lines 42-46); note the
last two tuples are far outside the documented `[0,1]` range. -/
def PAGE1_REDACT_COORDS : List (ℚ × ℚ × ℚ × ℚ) :=
  [(35/100, 90/100, 65/100, 95/100),
   (50, 50, 200, 80),
   (300, 100, 500, 130)]

/-- Page-2 coordinate redaction areas (config.py lines 48-55). -/
def PAGE2_REDACT_COORDS : List (ℚ × ℚ × ℚ × ℚ) :=
  [(2/100, 10/100, 12/100, 17/100),
   (13/100, 10/100, 18/100, 135/1000),
   (40/100, 94/100, 98/100, 97/100),
   (88/100, 85/100, 96/100, 92/100),
   (100, 200, 400, 250),
   (50, 300, 300, 350)]

/-- Default of env `DPI_PAGE2_RENDER` (config.py line 11). -/
def DPI_PAGE2_RENDER : ℚ := 220

/- Geometry: `clamp01` and `to_abs_rect` (pdf_anonymizer.py 25-43). -/

/-- Embedding of `clamp01`: clamp a coordinate value to `[0,1]`. -/
def clamp01 (v : ℚ) : ℚ := max 0 (min 1 v)

/-- Embedding of `to_abs_rect`: clamp every component to `[0,1]`, swap a
reversed coordinate pair, then map into the page bound.  `page.bound()`
is a valid rectangle, so its width is `x1 - x0` and its height
`y1 - y0`. -/
def to_abs_rect (bound : Rect) (rel : ℚ × ℚ × ℚ × ℚ) : Rect :=
  let x0r := clamp01 rel.1
  let y0r := clamp01 rel.2.1
  let x1r := clamp01 rel.2.2.1
  let y1r := clamp01 rel.2.2.2
  let x0r' := if x1r < x0r then x1r else x0r
  let x1r' := if x1r < x0r then x0r else x1r
  let y0r' := if y1r < y0r then y1r else y0r
  let y1r' := if y1r < y0r then y0r else y1r
  let w := bound.x1 - bound.x0
  let h := bound.y1 - bound.y0
  ⟨bound.x0 + w * x0r', bound.y0 + h * y0r',
   bound.x0 + w * x1r', bound.y0 + h * y1r'⟩

/- Stable sorting.  Python `list.sort(key=...)` is stable; a stable sort
by a total preorder is unique, and the structural insertion sort below
is stable: an element is inserted before the first already-placed
element it compares `le`-below-or-equal to, so elements with equal keys
keep their input order. -/

/-- Stable insertion of one element into a sorted list. -/
def ordInsert (le : α → α → Bool) (a : α) : List α → List α
  | [] => [a]
  | b :: l => if le a b then a :: b :: l else b :: ordInsert le a l

/-- Stable insertion sort by a boolean preorder. -/
def sortBy (le : α → α → Bool) (l : List α) : List α :=
  l.foldr (ordInsert le) []

/-- Python `round(y, 1)` on the baseline coordinate: round to the
nearest tenth (ties settled by `round`; the claims at stake do not
depend on tie direction). -/
def round1 (y : ℚ) : ℚ := (round (10 * y) : ℤ) / 10

/-- Sort key comparison of `words.sort(key=lambda w: (round(w[1], 1), w[0]))`:
lexicographic less-or-equal on `(round1 y0, x0)`. -/
def kLe (a b : Word) : Bool :=
  decide (round1 a.y0 < round1 b.y0 ∨ (round1 a.y0 = round1 b.y0 ∧ a.x0 ≤ b.x0))

/- Line grouping: `words_by_line` (pdf_anonymizer.py 128-146). -/

/-- Loop state of `words_by_line`: closed lines, the open line buffer,
and the running reference baseline `prev_y`. -/
structure GState where
  lines : List (List Word)
  current : List Word
  prevY : Option ℚ
deriving DecidableEq

/-- One iteration of the `for w in words` loop of `words_by_line`. -/
def groupStep (st : GState) (w : Word) : GState :=
  match st.prevY with
  | none => ⟨st.lines, st.current ++ [w], some w.y0⟩
  | some py =>
    if |w.y0 - py| ≤ LINE_TOLERANCE then
      ⟨st.lines, st.current ++ [w], some ((py + w.y0) / 2)⟩
    else
      ⟨st.lines ++ (if st.current.isEmpty then [] else [st.current]), [w], some w.y0⟩

/-- The trailing `if current: lines.append(current)` of `words_by_line`. -/
def finishGroups (st : GState) : List (List Word) :=
  st.lines ++ (if st.current.isEmpty then [] else [st.current])

/-- Words surviving the `w[4].strip()` filter, in the order of
`words.sort(key=lambda w: (round(w[1], 1), w[0]))`. -/
def sortedWords (ws : List Word) : List Word :=
  sortBy kLe (ws.filter (fun w => w.text.trim ≠ ""))

/-- Embedding of `words_by_line`: filter out whitespace-only words,
sort by `(round(y0, 1), x0)`, then group into lines by the
`LINE_TOLERANCE` walk. -/
def words_by_line (ws : List Word) : List (List Word) :=
  finishGroups ((sortedWords ws).foldl groupStep ⟨[], [], none⟩)

/- `rect_of_words` (pdf_anonymizer.py 149-157). -/

/-- Embedding of `rect_of_words`: bounding rectangle of the word slice
`words_line[start_idx:end_idx]`, inflated by `PADDING`.  Python `min`
and `max` raise on an empty sequence; that exception is `none`. -/
def rect_of_words (line : List Word) (s e : Nat) : Option Rect :=
  match (line.drop s).take (e - s) with
  | [] => none
  | w :: rest =>
    some ⟨rest.foldl (fun m x => min m x.x0) w.x0 - PADDING,
          rest.foldl (fun m x => min m x.y0) w.y0 - PADDING,
          rest.foldl (fun m x => max m x.x1) w.x1 + PADDING,
          rest.foldl (fun m x => max m x.y1) w.y1 + PADDING⟩

/- Label matching: `redact_line_values_after_label`
(pdf_anonymizer.py 160-187). -/

/-- Token normalization `tok if tok.endswith(":") else tok + ":"`. -/
def normLabel (t : String) : String := if t.endsWith ":" then t else t ++ ":"

/-- A token whose normalized key is in `labels_set` or `KEEP_LABELS`
(the boundary test of the inner `for j` loop). -/
def isLabelTok (labels keep : List String) (t : String) : Bool :=
  labels.contains (normLabel t) || keep.contains (normLabel t)

/-- A token that starts a redaction span: normalized key in `labels_set`
and not in `KEEP_LABELS`. -/
def isTriggerTok (labels keep : List String) (t : String) : Bool :=
  labels.contains (normLabel t) && !keep.contains (normLabel t)

/-- Offset of the first element satisfying `p`, if any (the `for j ...
break` search). -/
def firstIdxWhere (p : α → Bool) : List α → Option Nat
  | [] => none
  | t :: rest => if p t then some 0 else (firstIdxWhere p rest).map (· + 1)

/-- Index `end_idx` computed by the inner loop of
`redact_line_values_after_label`: first index `j ≥ s` whose token
normalizes to any label, or the line length. -/
def nextLabelIdx (labels keep : List String) (texts : List String) (s : Nat) : Nat :=
  match firstIdxWhere (isLabelTok labels keep) (texts.drop s) with
  | some k => s + k
  | none => texts.length

/-- Body of the `for i, tok in enumerate(texts)` loop: the span
`[start_idx, end_idx)` emitted for position `i`, if any. -/
def spanAt (labels keep : List String) (texts : List String) (i : Nat) : Option (Nat × Nat) :=
  if isTriggerTok labels keep (texts.getD i "") then
    let s := i + 1
    if texts.length ≤ s then none
    else
      let e := nextLabelIdx labels keep texts s
      if s < e then some (s, e) else none
  else none

/-- All spans `[start_idx, end_idx)` that one line contributes. -/
def redactionSpans (labels keep : List String) (texts : List String) : List (Nat × Nat) :=
  (List.range texts.length).filterMap (spanAt labels keep texts)

/-- Texts of a line, `texts = [w[4] for w in line]`. -/
def lineTexts (line : List Word) : List String := line.map (·.text)

/-- Severity of a `structlog` call. -/
inductive LogLevel
  | debug
  | info
  | warning
  | error
deriving DecidableEq

/-- One emitted log record: severity and the fixed message string (the
structured keyword arguments of the call are dropped). -/
structure LogEntry where
  level : LogLevel
  msg : String
deriving DecidableEq

/-- Rectangles passed to `add_redact_annot` by
`redact_line_values_after_label`, over the grouped lines of the page
words.  The second component is the log the function emits: its body
contains no logger call, so the log is empty. -/
def redact_line_values_after_label (labels keep : List String) (ws : List Word) :
    List (Option Rect) × List LogEntry :=
  ((words_by_line ws).flatMap (fun line =>
    (redactionSpans labels keep (lineTexts line)).map (fun se => rect_of_words line se.1 se.2)),
   [])

/- Signature heuristic: `redact_crm_and_upper_name`
(pdf_anonymizer.py 190-222). -/

/-- Concatenated line text `" ".join([w[4] for w in line])`. -/
def lineText (line : List Word) : String :=
  String.intercalate " " (lineTexts line)

/-- Part A of `redact_crm_and_upper_name`: for every token whose trimmed
text is a registration token, the rectangle from that token to the end
of its line. -/
def crm_token_rects (lines : List (List Word)) : List (Option Rect) :=
  lines.flatMap (fun line =>
    (List.range line.length).filterMap (fun i =>
      if CRM_TOKENS.contains ((lineTexts line).getD i "").trim then
        some (rect_of_words line i line.length)
      else none))

/-- The `line_rects` list of `redact_crm_and_upper_name`: every grouped
line paired with its full bounding rectangle.  The source calls
`rect_of_words(line, 0, len(line))` unconditionally; grouped lines are
never empty (proved below), so the `none` branch dropped here is dead. -/
def pairedLineRects (lines : List (List Word)) : List (Rect × List Word) :=
  lines.filterMap (fun l => (rect_of_words l 0 l.length).map (fun r => (r, l)))

/-- Candidacy test of the signature heuristic for one line rectangle
against one registration-token occurrence rectangle `R`. -/
def sigCond (rect R : Rect) : Bool :=
  decide (rect.y1 ≤ R.y0) && decide (R.y0 - rect.y1 ≤ PREVLINE_TOLERANCE) &&
  decide (rect.x1 > R.x0 - 50) && decide (rect.x0 < R.x1 + 50)

/-- Candidate tuples `(gap, rect, line)` collected for one occurrence
rectangle. -/
def sig_candidates (lineRects : List (Rect × List Word)) (R : Rect) :
    List (ℚ × Rect × List Word) :=
  lineRects.filterMap (fun p =>
    if sigCond p.1 R then some (R.y0 - p.1.y1, p.1, p.2) else none)

/-- Comparison used by `candidates.sort(key=lambda t: t[0])`. -/
def gapLe (a b : ℚ × Rect × List Word) : Bool := decide (a.1 ≤ b.1)

/-- Selection of the closest candidate line above one occurrence
rectangle (`candidates.sort(...); candidates[0]`). -/
def select_signature (lineRects : List (Rect × List Word)) (R : Rect) :
    Option (Rect × List Word) :=
  match sortBy gapLe (sig_candidates lineRects R) with
  | [] => none
  | c :: _ => some c.2

/-- Redaction decision for one occurrence rectangle: the selected
candidate rectangle, provided the concatenated line text contains no
colon. -/
def sig_redact_for (lineRects : List (Rect × List Word)) (R : Rect) : Option Rect :=
  match select_signature lineRects R with
  | none => none
  | some (rect, line) => if (lineText line).contains ':' then none else some rect

/-- Embedding of `redact_crm_and_upper_name`.  `crmHits` is the result
of the collaborator text search `page.search_for(label)` concatenated
over `CRM_TOKENS`.  First component: Part A token rectangles; second:
the Part B signature rectangles actually redacted, one optional entry
per occurrence rectangle. -/
def redact_crm_and_upper_name (ws : List Word) (crmHits : List Rect) :
    List (Option Rect) × List (Option Rect) :=
  let lines := words_by_line ws
  (crm_token_rects lines, crmHits.map (sig_redact_for (pairedLineRects lines)))

/- Page-1 orchestration: `anonymize_text_on_page1`
(pdf_anonymizer.py 225-231) and the identical inlined logic of
`anonymize_single_page_pdf` (pdf_anonymizer.py 234-275). -/

/-- The `labels_set = set(LABELS_SAME_LINE + KEEP_LABELS)` argument. -/
def labels_set : List String := LABELS_SAME_LINE ++ KEEP_LABELS

/-- One page as the collaborator hands it to the engine: its extracted
words, its bounding box (`page.bound()`), and the occurrence rectangles
that `page.search_for` returns for the registration tokens. -/
structure Page where
  words : List Word
  bound : Rect
  crmHits : List Rect
deriving DecidableEq

/-- All rectangles queued on page 1, in source order: label-value
rectangles, Part A registration-token rectangles, Part B signature
rectangles (only those actually redacted), then the coordinate areas of
`PAGE1_REDACT_COORDS`.  Entries are `Option Rect`: `none` marks a call
of `rect_of_words` on an empty slice, which would raise. -/
def page1Annots (p : Page) : List (Option Rect) :=
  (redact_line_values_after_label labels_set KEEP_LABELS p.words).1
    ++ (redact_crm_and_upper_name p.words p.crmHits).1
    ++ ((redact_crm_and_upper_name p.words p.crmHits).2.filterMap id).map some
    ++ PAGE1_REDACT_COORDS.map (fun c => some (to_abs_rect p.bound c))

/- Document model and metadata clearing: `clear_pdf_metadata`
(pdf_anonymizer.py 53-125).

PyMuPDF facts the embedding relies on:
* `Document.metadata` is a Python dictionary attribute built from the
  Info dictionary when the document is opened.  Assigning into it
  changes only that attribute; the persistent Info dictionary that
  `Document.save` serializes is changed only by `Document.set_metadata`,
  which this code never calls.
* `Document.set_xml_metadata` does write the XMP metadata stream of the
  document, so the XMP clearing is effective.
* `Document.pdf_catalog()` returns the xref number (an integer) of the
  catalog, so `"Info" in info_dict` raises `TypeError`, which the
  enclosing handler turns into the warning
  "Could not clear extended metadata".
* `Page.get_contents()` returns a list of integer xref numbers; an
  integer has no `metadata` attribute, so the page loop does nothing
  and raises nothing. -/

/-- Persistent metadata of a document: the Info dictionary that
serialization writes, and the XMP metadata stream. -/
structure DocMeta where
  info : List (String × String)
  xmp : String
deriving DecidableEq

/-- A document as PyMuPDF exposes it: pages, persistent metadata, and
the transient `doc.metadata` dictionary attribute. -/
structure FitzDoc where
  pages : List Page
  meta : DocMeta
  metaDict : List (String × String)
deriving DecidableEq

/-- Python dictionary assignment `m[k] = v`. -/
def dictSet (m : List (String × String)) (k v : String) : List (String × String) :=
  if m.any (fun kv => kv.1 == k) then
    m.map (fun kv => if kv.1 == k then (k, v) else kv)
  else m ++ [(k, v)]

/-- The `metadata_to_clear` keys of `clear_pdf_metadata`. -/
def metadata_to_clear : List String :=
  ["title", "author", "subject", "keywords", "creator", "producer",
   "creationDate", "modDate", "trapped"]

/-- Embedding of `clear_pdf_metadata`: blanks the transient
`doc.metadata` dictionary attribute (not the persistent Info
dictionary), clears the XMP stream via `set_xml_metadata`, and logs.
The `pdf_catalog` branch always fails with `TypeError` (membership test
on an integer) and only logs a warning; the page loop is a no-op. -/
def clear_pdf_metadata (doc : FitzDoc) : FitzDoc × List LogEntry :=
  let log0 := [⟨LogLevel.info, "Clearing PDF metadata for privacy"⟩]
    ++ (if doc.metaDict.isEmpty then [] else [⟨LogLevel.debug, "Current metadata"⟩])
  let doc1 : FitzDoc :=
    { doc with metaDict := metadata_to_clear.foldl (fun m k => dictSet m k "") doc.metaDict }
  let xmpLogs :=
    if doc1.meta.xmp = "" then [⟨LogLevel.debug, "No XMP metadata found"⟩]
    else [⟨LogLevel.debug, "Found XMP metadata, clearing it"⟩,
          ⟨LogLevel.info, "XMP metadata cleared successfully"⟩]
  let doc2 : FitzDoc :=
    if doc1.meta.xmp = "" then doc1
    else { doc1 with meta := { doc1.meta with xmp := "" } }
  (doc2,
   log0 ++ xmpLogs
     ++ [⟨LogLevel.warning, "Could not clear extended metadata"⟩,
         ⟨LogLevel.info, "PDF metadata clearing completed - standard, XMP, and extended metadata processed"⟩])

/- Output assembly: `anonymize_single_page_pdf` (234-288),
`anonymize_multi_page_pdf` (291-349) and `anonymize_pdf` (352-383). -/

/-- One page of a serialized output document: either the vector page 1
with its burned-in redaction rectangles, or the raster insertion built
from page 2 rendered at a DPI with the fractional regions drawn in
pixel coordinates. -/
inductive OutPage
  | vector (src : Page) (redactions : List (Option Rect))
  | raster (src : Page) (dpi : ℚ) (regions : List (ℚ × ℚ × ℚ × ℚ))
deriving DecidableEq

/-- A serialized output document: its pages, and the persistent
metadata that `doc.save` writes out. -/
structure SavedPDF where
  outPages : List OutPage
  info : List (String × String)
  xmp : String
deriving DecidableEq

/-- Embedding of `anonymize_single_page_pdf`: queue every page-1
rectangle, burn them in, clear metadata on the *input* document, and
serialize that document.  The output carries the persistent metadata of
the input document as `clear_pdf_metadata` left it. -/
def anonymize_single_page_pdf (doc : FitzDoc) : Option (SavedPDF × List LogEntry) :=
  match doc.pages with
  | [] => none
  | p1 :: _ =>
    let cleared := clear_pdf_metadata doc
    some ({ outPages := [OutPage.vector p1 (page1Annots p1)],
            info := cleared.1.meta.info,
            xmp := cleared.1.meta.xmp },
          [⟨LogLevel.info, "Processing single-page PDF"⟩]
            ++ cleared.2
            ++ [⟨LogLevel.info, "Single-page PDF anonymization completed"⟩])

/-- Embedding of `anonymize_multi_page_pdf`: redact page 1 and copy it
into a fresh output document, rasterize page 2 at `DPI_PAGE2_RENDER`
with the `PAGE2_REDACT_COORDS` regions drawn on the raster, insert it
as the second output page, clear metadata on the fresh output document
(a newly created empty document carries no descriptive Info fields and
no XMP), and serialize.  `none` models the `IndexError` of `doc[1]`,
impossible under the page-count guard of the caller. -/
def anonymize_multi_page_pdf (doc : FitzDoc) : Option (SavedPDF × List LogEntry) :=
  match doc.pages with
  | p1 :: p2 :: _ =>
    let outDoc : FitzDoc := { pages := [], meta := { info := [], xmp := "" }, metaDict := [] }
    let cleared := clear_pdf_metadata outDoc
    some ({ outPages := [OutPage.vector p1 (page1Annots p1),
                         OutPage.raster p2 DPI_PAGE2_RENDER PAGE2_REDACT_COORDS],
            info := cleared.1.meta.info,
            xmp := cleared.1.meta.xmp },
          [⟨LogLevel.info, "Processing multi-page PDF"⟩]
            ++ cleared.2
            ++ [⟨LogLevel.info, "Multi-page PDF anonymization completed"⟩])
  | _ => none

/-- Embedding of `anonymize_pdf`: open the document (the collaborator
parse of the input bytes is the given `FitzDoc`), inspect the page
count, raise `ValueError("PDF must have at least 1 page")` on zero
pages, and otherwise dispatch on the page count.  The result pairs the
outcome with the full emitted log. -/
def anonymize_pdf (doc : FitzDoc) : Except String SavedPDF × List LogEntry :=
  let log0 := [⟨LogLevel.info, "Starting PDF anonymization"⟩,
               ⟨LogLevel.info, "PDF page count detected"⟩]
  if doc.pages.length = 0 then
    (Except.error "PDF must have at least 1 page", log0)
  else if doc.pages.length = 1 then
    match anonymize_single_page_pdf doc with
    | some (s, l) => (Except.ok s, log0 ++ l)
    | none => (Except.error "page index out of range",
               log0 ++ [⟨LogLevel.error, "PDF anonymization failed"⟩])
  else
    match anonymize_multi_page_pdf doc with
    | some (s, l) => (Except.ok s, log0 ++ l)
    | none => (Except.error "page index out of range",
               log0 ++ [⟨LogLevel.error, "PDF anonymization failed"⟩])

/- Specification rendering of the LineGrouper (spec.md section 4.1),
for the refinement claim about `words_by_line`.  Written from the words
of the spec: walk the sorted sequence with a reference baseline,
appending within tolerance and updating the reference to the midpoint,
otherwise closing the open line (if non-empty) and starting a new one. -/

/-- Walk of the spec LineGrouper over the sorted word sequence. -/
def specWalk : Option ℚ → List Word → List Word → List (List Word)
  | _, cur, [] => if cur.isEmpty then [] else [cur]
  | none, cur, w :: rest => specWalk (some w.y0) (cur ++ [w]) rest
  | some py, cur, w :: rest =>
    if |w.y0 - py| ≤ LINE_TOLERANCE then
      specWalk (some ((py + w.y0) / 2)) (cur ++ [w]) rest
    else
      (if cur.isEmpty then [] else [cur]) ++ specWalk (some w.y0) [w] rest

/-- Spec LineGrouper: discard whitespace-only words, sort ascending by
`(round(y0, 1), x0)`, then walk. -/
def lineGrouperSpec (ws : List Word) : List (List Word) :=
  specWalk none [] (sortedWords ws)

/-- Boolean success test on an `Except` result. -/
def exceptOk : Except ε α → Bool
  | Except.ok _ => true
  | Except.error _ => false

/- Concrete inputs used by witnesses and counterexamples. -/

/-- Words of the spec example line `["Nome:", "Ana", "Silva", "CPF:", "123"]`. -/
def exampleLineWords : List Word :=
  [⟨0, 0, 10, 2, "Nome:"⟩, ⟨12, 0, 18, 2, "Ana"⟩, ⟨20, 0, 30, 2, "Silva"⟩,
   ⟨32, 0, 38, 2, "CPF:"⟩, ⟨40, 0, 46, 2, "123"⟩]

/-- Line with a label configured in both roles (`Dup:`) followed by a
value, then an ordinary trigger label with its value. -/
def conflictLineWords : List Word :=
  [⟨0, 0, 8, 2, "Dup:"⟩, ⟨10, 0, 16, 2, "123"⟩,
   ⟨18, 0, 26, 2, "Nome:"⟩, ⟨28, 0, 34, 2, "Ana"⟩]

/-- Two distinct words sharing the sort key `(round(y0, 1), x0)`. -/
def wordA : Word := ⟨0, 0, 1, 1, "a"⟩

/-- Second word of the shared-key pair. -/
def wordB : Word := ⟨0, 0, 1, 1, "b"⟩

/-- A page with no extractable words on a US-letter bound. -/
def blankPage : Page := ⟨[], ⟨0, 0, 612, 792⟩, []⟩

/-- One-page document carrying descriptive Info metadata and an XMP
stream: the failing input of the metadata-clearing claim. -/
def docWithMetadata : FitzDoc :=
  ⟨[blankPage],
   ⟨[("title", "ECG Report - Patient Silva"), ("author", "Hospital X")], "xmp-packet"⟩,
   [("title", "ECG Report - Patient Silva"), ("author", "Hospital X")]⟩

/-- Zero-page document. -/
def emptyDoc : FitzDoc := ⟨[], ⟨[], ""⟩, []⟩

/-- Plain one-page document with no metadata. -/
def plainSinglePageDoc : FitzDoc := ⟨[blankPage], ⟨[], ""⟩, []⟩

/-- Three-page document for the multi-page dispatch witness. -/
def threePageDoc : FitzDoc :=
  ⟨[blankPage, ⟨[], ⟨0, 0, 612, 792⟩, []⟩, ⟨[⟨1, 1, 2, 2, "x"⟩], ⟨0, 0, 612, 792⟩, []⟩],
   ⟨[], ""⟩, []⟩

/- Sorting lemmas. -/

/-- Inserting an element permutes with consing it. -/
theorem ordInsert_perm (le : α → α → Bool) (a : α) (l : List α) :
    List.Perm (ordInsert le a l) (a :: l) := by
  induction l with
  | nil => exact List.Perm.refl _
  | cons b t ih =>
    rw [ordInsert]
    by_cases hab : le a b = true
    · rw [if_pos hab]
    · rw [if_neg hab]
      exact (ih.cons b).trans (List.Perm.swap a b t)

/-- The stable insertion sort permutes its input. -/
theorem sortBy_perm (le : α → α → Bool) (l : List α) : List.Perm (sortBy le l) l := by
  induction l with
  | nil => exact List.Perm.refl _
  | cons a t ih => exact (ordInsert_perm le a (sortBy le t)).trans (ih.cons a)

/-- Inserting into a sorted list keeps it sorted, for a total and
transitive comparison. -/
theorem ordInsert_pairwise {le : α → α → Bool}
    (tot : ∀ a b, le a b = true ∨ le b a = true)
    (htr : ∀ a b c, le a b = true → le b c = true → le a c = true)
    (a : α) {l : List α} (h : l.Pairwise (fun x y => le x y = true)) :
    (ordInsert le a l).Pairwise (fun x y => le x y = true) := by
  induction l with
  | nil => simp [ordInsert]
  | cons b t ih =>
    have hb := (List.pairwise_cons.mp h).1
    have ht := (List.pairwise_cons.mp h).2
    rw [ordInsert]
    by_cases hab : le a b = true
    · rw [if_pos hab]
      refine List.pairwise_cons.mpr ⟨?_, h⟩
      intro x hx
      rcases List.mem_cons.mp hx with rfl | hx'
      · exact hab
      · exact htr a b x hab (hb x hx')
    · rw [if_neg hab]
      refine List.pairwise_cons.mpr ⟨?_, ih ht⟩
      intro x hx
      rcases List.mem_cons.mp ((ordInsert_perm le a t).mem_iff.mp hx) with rfl | hx'
      · rcases tot x b with h1 | h1
        · exact absurd h1 hab
        · exact h1
      · exact hb x hx'

/-- The stable insertion sort sorts, for a total and transitive
comparison. -/
theorem sortBy_pairwise {le : α → α → Bool}
    (tot : ∀ a b, le a b = true ∨ le b a = true)
    (htr : ∀ a b c, le a b = true → le b c = true → le a c = true)
    (l : List α) : (sortBy le l).Pairwise (fun x y => le x y = true) := by
  induction l with
  | nil => simp [sortBy]
  | cons a t ih => exact ordInsert_pairwise tot htr a ih

/-- Two sorted permutations of each other agree, provided the
comparison is antisymmetric on the members involved. -/
theorem perm_pairwise_eq {le : α → α → Bool} :
    ∀ {l₁ l₂ : List α}, List.Perm l₁ l₂ →
    (∀ a ∈ l₁, ∀ b ∈ l₁, le a b = true → le b a = true → a = b) →
    l₁.Pairwise (fun x y => le x y = true) →
    l₂.Pairwise (fun x y => le x y = true) → l₁ = l₂ := by
  intro l₁
  induction l₁ with
  | nil =>
    intro l₂ hp _ _ _
    exact hp.nil_eq
  | cons a t ih =>
    intro l₂ hp anti h1 h2
    cases l₂ with
    | nil => exact absurd hp.symm.nil_eq (by simp)
    | cons b t₂ =>
      have hab : a = b := by
        rcases List.mem_cons.mp (hp.mem_iff.mp (List.mem_cons_self a t)) with h' | hat2
        · exact h'
        · rcases List.mem_cons.mp (hp.symm.mem_iff.mp (List.mem_cons_self b t₂)) with h' | hbt
          · exact h'.symm
          · exact anti a (List.mem_cons_self a t) b (List.mem_cons_of_mem a hbt)
              ((List.pairwise_cons.mp h1).1 b hbt)
              ((List.pairwise_cons.mp h2).1 a hat2)
      subst hab
      have htp : List.Perm t t₂ := hp.cons_inv
      have : t = t₂ := by
        refine ih htp ?_ (List.pairwise_cons.mp h1).2 (List.pairwise_cons.mp h2).2
        intro x hx y hy
        exact anti x (List.mem_cons_of_mem a hx) y (List.mem_cons_of_mem a hy)
      rw [this]

/-- The word-key comparison is total. -/
theorem kLe_total (a b : Word) : kLe a b = true ∨ kLe b a = true := by
  simp only [kLe, decide_eq_true_eq]
  rcases lt_trichotomy (round1 a.y0) (round1 b.y0) with h | h | h
  · exact Or.inl (Or.inl h)
  · rcases le_total a.x0 b.x0 with hx | hx
    · exact Or.inl (Or.inr ⟨h, hx⟩)
    · exact Or.inr (Or.inr ⟨h.symm, hx⟩)
  · exact Or.inr (Or.inl h)

/-- The word-key comparison is transitive. -/
theorem kLe_trans (a b c : Word) (h1 : kLe a b = true) (h2 : kLe b c = true) :
    kLe a c = true := by
  simp only [kLe, decide_eq_true_eq] at h1 h2 ⊢
  rcases h1 with h1 | ⟨h1e, h1x⟩
  · rcases h2 with h2 | ⟨h2e, _⟩
    · exact Or.inl (h1.trans h2)
    · exact Or.inl (h2e ▸ h1)
  · rcases h2 with h2 | ⟨h2e, h2x⟩
    · exact Or.inl (h1e ▸ h2)
    · exact Or.inr ⟨h1e.trans h2e, h1x.trans h2x⟩

/-- Mutually `kLe`-comparable words share both key components. -/
theorem kLe_antisymm_key {a b : Word} (h1 : kLe a b = true) (h2 : kLe b a = true) :
    round1 a.y0 = round1 b.y0 ∧ a.x0 = b.x0 := by
  simp only [kLe, decide_eq_true_eq] at h1 h2
  rcases h1 with h1 | ⟨h1e, h1x⟩
  · rcases h2 with h2 | ⟨h2e, _⟩
    · exact absurd h1 (not_lt.mpr h2.le)
    · exact absurd h1 (not_lt.mpr h2e.le)
  · rcases h2 with h2 | ⟨h2e, h2x⟩
    · exact absurd h2 (not_lt.mpr h1e.le)
    · exact ⟨h1e, le_antisymm h1x h2x⟩

/-- The gap comparison is total. -/
theorem gapLe_total (a b : ℚ × Rect × List Word) : gapLe a b = true ∨ gapLe b a = true := by
  simp only [gapLe, decide_eq_true_eq]
  exact le_total a.1 b.1

/-- The gap comparison is transitive. -/
theorem gapLe_trans (a b c : ℚ × Rect × List Word)
    (h1 : gapLe a b = true) (h2 : gapLe b c = true) : gapLe a c = true := by
  simp only [gapLe, decide_eq_true_eq] at h1 h2 ⊢
  exact h1.trans h2
/- Label matcher lemmas. -/

/-- If no element satisfies the search predicate, every position fails
it. -/
theorem firstIdxWhere_none {p : String → Bool} :
    ∀ {l : List String}, firstIdxWhere p l = none →
      ∀ m, m < l.length → p (l.getD m "") = false := by
  intro l
  induction l with
  | nil => intro _ m hm; exact absurd hm (by simp)
  | cons t rest ih =>
    intro h m hm
    rw [firstIdxWhere] at h
    by_cases hp : p t = true
    · rw [if_pos hp] at h; cases h
    · rw [if_neg hp] at h
      cases m with
      | zero =>
        rw [List.getD_cons_zero]
        exact Bool.eq_false_iff.mpr hp
      | succ m' =>
        have hrest : firstIdxWhere p rest = none := by
          cases hfi : firstIdxWhere p rest with
          | none => rfl
          | some k => rw [hfi] at h; cases h
        rw [List.getD_cons_succ]
        refine ih hrest m' ?_
        rw [List.length_cons] at hm
        omega

/-- Characterization of a successful search: the found position is in
range, satisfies the predicate, and every earlier position fails it. -/
theorem firstIdxWhere_some {p : String → Bool} :
    ∀ {l : List String} {k}, firstIdxWhere p l = some k →
      k < l.length ∧ p (l.getD k "") = true ∧ ∀ m, m < k → p (l.getD m "") = false := by
  intro l
  induction l with
  | nil => intro k h; cases h
  | cons t rest ih =>
    intro k h
    rw [firstIdxWhere] at h
    by_cases hp : p t = true
    · rw [if_pos hp] at h
      cases h
      exact ⟨by simp, by rw [List.getD_cons_zero]; exact hp,
        fun m hm => absurd hm (by simp)⟩
    · rw [if_neg hp] at h
      cases hfi : firstIdxWhere p rest with
      | none => rw [hfi] at h; cases h
      | some k' =>
        rw [hfi] at h
        rw [Option.map_some'] at h
        cases h
        obtain ⟨hk1, hk2, hk3⟩ := ih hfi
        refine ⟨by rw [List.length_cons]; omega, by rw [List.getD_cons_succ]; exact hk2, ?_⟩
        intro m hm
        cases m with
        | zero =>
          rw [List.getD_cons_zero]
          exact Bool.eq_false_iff.mpr hp
        | succ m' =>
          rw [List.getD_cons_succ]
          exact hk3 m' (by omega)

/-- Reading inside a dropped prefix. -/
theorem getD_drop (l : List String) (s m : Nat) :
    (l.drop s).getD m "" = l.getD (s + m) "" := by
  simp [List.getD_eq_getElem?_getD, List.getElem?_drop]

/-- The next-label index never exceeds the line length. -/
theorem nextLabelIdx_le {labels keep : List String} {texts : List String} {s : Nat} :
    nextLabelIdx labels keep texts s ≤ texts.length := by
  rw [nextLabelIdx]
  cases hfi : firstIdxWhere (isLabelTok labels keep) (texts.drop s) with
  | none => simp
  | some k =>
    obtain ⟨hk, _, _⟩ := firstIdxWhere_some hfi
    rw [List.length_drop] at hk
    simp only []
    omega

/-- Every position strictly between the span start and the next-label
index fails the label test. -/
theorem nextLabelIdx_not_label {labels keep : List String} {texts : List String} {s : Nat}
    (j : Nat) (hsj : s ≤ j) (hj : j < nextLabelIdx labels keep texts s) :
    isLabelTok labels keep (texts.getD j "") = false := by
  rw [nextLabelIdx] at hj
  cases hfi : firstIdxWhere (isLabelTok labels keep) (texts.drop s) with
  | none =>
    rw [hfi] at hj
    simp only [] at hj
    have := firstIdxWhere_none hfi (j - s) (by rw [List.length_drop]; omega)
    rwa [getD_drop, Nat.add_sub_cancel' hsj] at this
  | some k =>
    rw [hfi] at hj
    simp only [] at hj
    obtain ⟨_, _, hk3⟩ := firstIdxWhere_some hfi
    have := hk3 (j - s) (by omega)
    rwa [getD_drop, Nat.add_sub_cancel' hsj] at this

/-- Membership characterization of the emitted redaction spans: a span
is emitted exactly for a trigger position followed by at least one
value token, running to the next-label index. -/
theorem mem_redactionSpans_iff {labels keep texts : List String} {s e : Nat} :
    (s, e) ∈ redactionSpans labels keep texts ↔
    ∃ i, i < texts.length ∧ isTriggerTok labels keep (texts.getD i "") = true ∧
      s = i + 1 ∧ s < texts.length ∧ e = nextLabelIdx labels keep texts s ∧ s < e := by
  rw [redactionSpans, List.mem_filterMap]
  constructor
  · rintro ⟨i, hi, hspan⟩
    rw [List.mem_range] at hi
    rw [spanAt] at hspan
    by_cases htrig : isTriggerTok labels keep (texts.getD i "") = true
    · rw [if_pos htrig] at hspan
      by_cases hlen : texts.length ≤ i + 1
      · rw [if_pos hlen] at hspan; cases hspan
      · rw [if_neg hlen] at hspan
        by_cases hlt : i + 1 < nextLabelIdx labels keep texts (i + 1)
        · rw [if_pos hlt] at hspan
          cases hspan
          exact ⟨i, hi, htrig, rfl, by omega, rfl, hlt⟩
        · rw [if_neg hlt] at hspan; cases hspan
    · rw [if_neg htrig] at hspan; cases hspan
  · rintro ⟨i, hi, htrig, rfl, hs, rfl, hse⟩
    refine ⟨i, List.mem_range.mpr hi, ?_⟩
    rw [spanAt, if_pos htrig, if_neg (by omega), if_pos hse]

/-- No emitted span covers a token that normalizes to any configured
label. -/
theorem span_no_label {labels keep texts : List String} {s e : Nat}
    (h : (s, e) ∈ redactionSpans labels keep texts) :
    ∀ j, s ≤ j → j < e → isLabelTok labels keep (texts.getD j "") = false := by
  obtain ⟨i, _, _, rfl, _, he, _⟩ := mem_redactionSpans_iff.mp h
  intro j hsj hj
  exact nextLabelIdx_not_label j hsj (he ▸ hj)

/-- A word-range rectangle over a non-empty in-range slice always
exists. -/
theorem rect_of_words_isSome {line : List Word} {s e : Nat}
    (hs : s < line.length) (hse : s < e) :
    (rect_of_words line s e).isSome = true := by
  have hd : line.drop s ≠ [] := by
    rw [ne_eq, List.drop_eq_nil_iff]
    omega
  obtain ⟨w, rest, hw⟩ := List.exists_cons_of_ne_nil hd
  obtain ⟨k, hk⟩ : ∃ k, e - s = k + 1 := ⟨e - s - 1, by omega⟩
  rw [rect_of_words, hw, hk, List.take_succ_cons]
  rfl

/- Line grouping lemmas. -/

/-- The grouping fold preserves non-emptiness of every closed line. -/
theorem foldl_groupStep_lines_nonempty :
    ∀ (l : List Word) (st : GState), (∀ x ∈ st.lines, x ≠ []) →
      ∀ x ∈ (l.foldl groupStep st).lines, x ≠ [] := by
  intro l
  induction l with
  | nil => intro st h; exact h
  | cons w t ih =>
    intro st h
    obtain ⟨lines, cur, py⟩ := st
    rw [List.foldl_cons]
    refine ih (groupStep ⟨lines, cur, py⟩ w) ?_
    cases py with
    | none => simpa only [groupStep] using h
    | some py =>
      simp only [groupStep]
      by_cases hta : |w.y0 - py| ≤ LINE_TOLERANCE
      · rw [if_pos hta]; exact h
      · rw [if_neg hta]
        intro x hx
        rcases List.mem_append.mp hx with hx' | hx'
        · exact h x hx'
        · by_cases hcur : cur.isEmpty = true
          · rw [if_pos hcur] at hx'; cases hx'
          · rw [if_neg hcur] at hx'
            rcases List.mem_singleton.mp hx' with rfl
            exact fun hnil => hcur (by rw [hnil]; rfl)

/-- Every grouped line is non-empty. -/
theorem words_by_line_ne_nil {ws : List Word} : ∀ l ∈ words_by_line ws, l ≠ [] := by
  intro l hl
  rw [words_by_line, finishGroups] at hl
  rcases List.mem_append.mp hl with h | h
  · exact foldl_groupStep_lines_nonempty _ _ (by intro x hx; cases hx) l h
  · set st := (sortedWords ws).foldl groupStep ⟨[], [], none⟩ with hst
    by_cases hcur : st.current.isEmpty = true
    · rw [if_pos hcur] at h; cases h
    · rw [if_neg hcur] at h
      rcases List.mem_singleton.mp h with rfl
      exact fun hnil => hcur (by rw [hnil]; rfl)

/- Signature heuristic lemmas. -/

/-- The candidacy test, componentwise. -/
theorem sigCond_iff {rect R : Rect} :
    sigCond rect R = true ↔
    rect.y1 ≤ R.y0 ∧ R.y0 - rect.y1 ≤ PREVLINE_TOLERANCE ∧
      rect.x1 > R.x0 - 50 ∧ rect.x0 < R.x1 + 50 := by
  simp [sigCond, and_assoc, gt_iff_lt]

/-- Membership characterization of the candidate list. -/
theorem mem_sig_candidates_iff {lineRects : List (Rect × List Word)} {R : Rect}
    {g : ℚ} {rect : Rect} {line : List Word} :
    (g, rect, line) ∈ sig_candidates lineRects R ↔
    (rect, line) ∈ lineRects ∧ sigCond rect R = true ∧ g = R.y0 - rect.y1 := by
  rw [sig_candidates, List.mem_filterMap]
  constructor
  · rintro ⟨p, hp, hcond⟩
    by_cases hc : sigCond p.1 R = true
    · rw [if_pos hc] at hcond
      injection hcond with heq
      injection heq with hg hrest
      injection hrest with hr hl
      subst hg
      subst hr
      subst hl
      exact ⟨by simpa using hp, hc, rfl⟩
    · rw [if_neg hc] at hcond; cases hcond
  · rintro ⟨hmem, hcond, rfl⟩
    exact ⟨(rect, line), hmem, by rw [if_pos hcond]⟩

/-- The selected candidate is a candidate and has the least gap. -/
theorem select_signature_min {lineRects : List (Rect × List Word)} {R : Rect}
    {rect : Rect} {line : List Word}
    (h : select_signature lineRects R = some (rect, line)) :
    (R.y0 - rect.y1, rect, line) ∈ sig_candidates lineRects R ∧
    ∀ c ∈ sig_candidates lineRects R, R.y0 - rect.y1 ≤ c.1 := by
  rw [select_signature] at h
  cases hs : sortBy gapLe (sig_candidates lineRects R) with
  | nil => rw [hs] at h; cases h
  | cons c rest =>
    rw [hs] at h
    injection h with hc
    have hcmem : c ∈ sig_candidates lineRects R :=
      (sortBy_perm gapLe (sig_candidates lineRects R)).mem_iff.mp
        (hs ▸ List.mem_cons_self c rest)
    have hchar : (c.2.1, c.2.2) ∈ lineRects ∧ sigCond c.2.1 R = true ∧ c.1 = R.y0 - c.2.1.y1 :=
      mem_sig_candidates_iff.mp (by simpa using hcmem)
    have hcrect : c.2.1 = rect := by rw [hc]
    have hcline : c.2.2 = line := by rw [hc]
    have hgap : c.1 = R.y0 - rect.y1 := by rw [hchar.2.2, hcrect]
    constructor
    · have : c = (R.y0 - rect.y1, rect, line) := by
        obtain ⟨cg, cp⟩ := c
        simp only at hgap hc
        rw [hgap, hc]
      exact this ▸ hcmem
    · intro c' hc'
      have hc'sorted : c' ∈ sortBy gapLe (sig_candidates lineRects R) :=
        (sortBy_perm gapLe (sig_candidates lineRects R)).symm.mem_iff.mp hc'
      rw [hs] at hc'sorted
      rcases List.mem_cons.mp hc'sorted with rfl | hrest
      · rw [hgap.symm]
      · have hp := sortBy_pairwise gapLe_total gapLe_trans (sig_candidates lineRects R)
        rw [hs] at hp
        have := (List.pairwise_cons.mp hp).1 c' hrest
        rw [gapLe, decide_eq_true_eq] at this
        rw [← hgap]
        exact this

/-- The signature redaction decision, characterized. -/
theorem sig_redact_for_eq_some_iff {lineRects : List (Rect × List Word)} {R : Rect} {r : Rect} :
    sig_redact_for lineRects R = some r ↔
    ∃ line, select_signature lineRects R = some (r, line) ∧
      (lineText line).contains ':' = false := by
  cases hsel : select_signature lineRects R with
  | none => simp [sig_redact_for, hsel]
  | some p =>
    obtain ⟨rect, line⟩ := p
    by_cases hc : (lineText line).contains ':' = true
    · simp [sig_redact_for, hsel, hc]
    · simp only [sig_redact_for, hsel, Bool.not_eq_true] at hc ⊢
      rw [if_neg (by rw [hc]; exact Bool.false_ne_true)]
      simp only [Option.some.injEq, Prod.mk.injEq]
      constructor
      · intro hr
        exact ⟨line, ⟨hr, rfl⟩, hc⟩
      · rintro ⟨line', ⟨h1, h2⟩, h3⟩
        exact h1

/- Refinement of the grouping fold by the spec walk. -/

/-- The grouping loop agrees with the spec walk from any intermediate
state. -/
theorem foldl_groupStep_eq_specWalk :
    ∀ (l : List Word) (lines : List (List Word)) (cur : List Word) (py : Option ℚ),
      finishGroups (l.foldl groupStep ⟨lines, cur, py⟩) = lines ++ specWalk py cur l := by
  intro l
  induction l with
  | nil =>
    intro lines cur py
    cases py <;> simp [finishGroups, specWalk]
  | cons w t ih =>
    intro lines cur py
    rw [List.foldl_cons]
    cases py with
    | none =>
      simp only [groupStep]
      rw [ih, specWalk]
    | some py =>
      by_cases hta : |w.y0 - py| ≤ LINE_TOLERANCE
      · simp only [groupStep, if_pos hta]
        rw [ih, specWalk, if_pos hta]
      · simp only [groupStep, if_neg hta]
        rw [ih, specWalk, if_neg hta, List.append_assoc]

/- Geometry lemmas. -/

/-- Clamping is the identity on `[0,1]`. -/
theorem clamp01_of_mem {v : ℚ} (h0 : 0 ≤ v) (h1 : v ≤ 1) : clamp01 v = v := by
  rw [clamp01, min_eq_right h1, max_eq_right h0]

/-- Clamped values lie in `[0,1]`. -/
theorem clamp01_mem (v : ℚ) : 0 ≤ clamp01 v ∧ clamp01 v ≤ 1 :=
  ⟨le_max_left 0 _, max_le (by norm_num) (min_le_left 1 v)⟩

/-- Clamping is idempotent. -/
theorem clamp01_idem (v : ℚ) : clamp01 (clamp01 v) = clamp01 v :=
  clamp01_of_mem (clamp01_mem v).1 (clamp01_mem v).2

/-- The swap step computes the smaller coordinate. -/
theorem swap_low (a c : ℚ) : (if c < a then c else a) = min a c := by
  rcases lt_or_le c a with h | h
  · rw [if_pos h, min_eq_right h.le]
  · rw [if_neg (not_lt.mpr h), min_eq_left h]

/-- The swap step computes the larger coordinate. -/
theorem swap_high (a c : ℚ) : (if c < a then a else c) = max a c := by
  rcases lt_or_le c a with h | h
  · rw [if_pos h, max_eq_left h.le]
  · rw [if_neg (not_lt.mpr h), max_eq_right h]

/-- The region mapping ignores any clamping already applied. -/
theorem to_abs_rect_clamp (bound : Rect) (a b c d : ℚ) :
    to_abs_rect bound (a, b, c, d) =
      to_abs_rect bound (clamp01 a, clamp01 b, clamp01 c, clamp01 d) := by
  simp only [to_abs_rect, clamp01_idem]

/-- On in-range fractional tuples the mapping is affine in the page
bound, with reversed pairs swapped. -/
theorem to_abs_rect_in_range (bound : Rect) (a b c d : ℚ)
    (ha0 : 0 ≤ a) (ha1 : a ≤ 1) (hb0 : 0 ≤ b) (hb1 : b ≤ 1)
    (hc0 : 0 ≤ c) (hc1 : c ≤ 1) (hd0 : 0 ≤ d) (hd1 : d ≤ 1) :
    to_abs_rect bound (a, b, c, d) =
      ⟨bound.x0 + (bound.x1 - bound.x0) * min a c,
       bound.y0 + (bound.y1 - bound.y0) * min b d,
       bound.x0 + (bound.x1 - bound.x0) * max a c,
       bound.y0 + (bound.y1 - bound.y0) * max b d⟩ := by
  simp only [to_abs_rect, clamp01_of_mem ha0 ha1, clamp01_of_mem hb0 hb1,
    clamp01_of_mem hc0 hc1, clamp01_of_mem hd0 hd1, swap_low, swap_high]

/- Pipeline lemmas. -/

/-- Metadata clearing never changes the persistent Info dictionary. -/
theorem clear_pdf_metadata_info (doc : FitzDoc) :
    (clear_pdf_metadata doc).1.meta.info = doc.meta.info := by
  rw [clear_pdf_metadata]
  by_cases hx : doc.meta.xmp = ""
  · simp [hx]
  · simp [hx]

/-- Metadata clearing always leaves an empty XMP stream. -/
theorem clear_pdf_metadata_xmp (doc : FitzDoc) :
    (clear_pdf_metadata doc).1.meta.xmp = "" := by
  rw [clear_pdf_metadata]
  by_cases hx : doc.meta.xmp = ""
  · simp [hx]
  · simp [hx]

/-- The single-page assembler, on a one-page document: serialized
output keeps the Info dictionary of the input document untouched and
carries an empty XMP stream. -/
theorem anonymize_single_page_eq (doc : FitzDoc) (p : Page) (h : doc.pages = p :: []) :
    anonymize_single_page_pdf doc = some
      (⟨[OutPage.vector p (page1Annots p)], doc.meta.info, ""⟩,
       [⟨LogLevel.info, "Processing single-page PDF"⟩]
         ++ (clear_pdf_metadata doc).2
         ++ [⟨LogLevel.info, "Single-page PDF anonymization completed"⟩]) := by
  simp only [anonymize_single_page_pdf, h, clear_pdf_metadata_info, clear_pdf_metadata_xmp]

/-- The hybrid assembler, on a document with at least two pages. -/
theorem anonymize_multi_page_eq (doc : FitzDoc) (p1 p2 : Page) (rest : List Page)
    (h : doc.pages = p1 :: p2 :: rest) :
    anonymize_multi_page_pdf doc = some
      (⟨[OutPage.vector p1 (page1Annots p1),
         OutPage.raster p2 DPI_PAGE2_RENDER PAGE2_REDACT_COORDS], [], ""⟩,
       [⟨LogLevel.info, "Processing multi-page PDF"⟩]
         ++ (clear_pdf_metadata ⟨[], ⟨[], ""⟩, []⟩).2
         ++ [⟨LogLevel.info, "Multi-page PDF anonymization completed"⟩]) := by
  simp only [anonymize_multi_page_pdf, h, clear_pdf_metadata_info, clear_pdf_metadata_xmp]

/-- The pipeline succeeds on every document with at least one page. -/
theorem anonymize_pdf_ok_of_nonempty (doc : FitzDoc) (p : Page) (rest : List Page)
    (h : doc.pages = p :: rest) : exceptOk (anonymize_pdf doc).1 = true := by
  rw [anonymize_pdf]
  cases rest with
  | nil =>
    rw [anonymize_single_page_eq doc p h]
    simp [h, exceptOk]
  | cons p2 rest2 =>
    rw [anonymize_multi_page_eq doc p p2 rest2 h]
    simp [h, exceptOk]

/- Claim theorems. -/

/-- C1: for every line of tokens and every label configuration, a
redaction span is emitted exactly for each trigger position (token
normalizing to a trigger label that is not a keep label) followed by at
least one value token; the span runs from the following token up to the
first later token normalizing to any trigger or keep label (or end of
line); a span never covers a token normalizing to a label; and on the
example line `["Nome:", "Ana", "Silva", "CPF:", "123"]` with the real
configuration the engine emits exactly the rectangle over
`["Ana", "Silva"]` and the rectangle over `["123"]`, each inflated by
`PADDING` on all sides. -/
theorem C1_label_span_correctness :
    (∀ (labels keep texts : List String) (s e : Nat),
        ((s, e) ∈ redactionSpans labels keep texts ↔
          ∃ i, i < texts.length ∧ isTriggerTok labels keep (texts.getD i "") = true ∧
            s = i + 1 ∧ s < texts.length ∧ e = nextLabelIdx labels keep texts s ∧ s < e))
    ∧ (∀ (labels keep texts : List String) (s e : Nat),
        (s, e) ∈ redactionSpans labels keep texts →
          ∀ j, s ≤ j → j < e → isLabelTok labels keep (texts.getD j "") = false)
    ∧ (redact_line_values_after_label labels_set KEEP_LABELS exampleLineWords).1
        = [some ⟨11, -1, 31, 3⟩, some ⟨39, -1, 47, 3⟩] := by
  refine ⟨fun labels keep texts s e => mem_redactionSpans_iff,
          fun labels keep texts s e h => span_no_label h, ?_⟩
  with_unfolding_all decide

/-- Witness for C1: on the example line, the span `(1, 3)` is emitted
and position `1` (the token `Ana`) is not a label. -/
theorem C1_label_span_witness :
    isLabelTok labels_set KEEP_LABELS ((lineTexts exampleLineWords).getD 1 "") = false ∧
    (1, 3) ∈ redactionSpans labels_set KEEP_LABELS (lineTexts exampleLineWords) :=
  ⟨C1_label_span_correctness.2.1 labels_set KEEP_LABELS (lineTexts exampleLineWords) 1 3
      (by with_unfolding_all decide) 1 le_rfl (by decide),
   by with_unfolding_all decide⟩

/-- C2 counterexample: with the label `Dup:` configured as both a
trigger and a keep label, the matcher emits no rectangle for the value
after `Dup:` and still handles the rest of the line, but it emits no
log record at all — in particular no warning — contradicting the
claimed non-fatal warning. -/
theorem C2_conflict_counterexample :
    "Dup:" ∈ (["Nome:", "Dup:"] : List String) ∧ "Dup:" ∈ (["Dup:"] : List String) ∧
    (redact_line_values_after_label ["Nome:", "Dup:"] ["Dup:"] conflictLineWords).1
      = [some ⟨27, -1, 35, 3⟩] ∧
    (redact_line_values_after_label ["Nome:", "Dup:"] ["Dup:"] conflictLineWords).2 = [] :=
  ⟨by decide, by decide, by with_unfolding_all decide, rfl⟩

/-- C2 (amended): for every label present in both roles, KeepLabels
takes precedence — no emitted span follows a keep label — processing of
the rest of the line is unaffected (on the conflict line only the
`Nome:` value is spanned), and the conflict is resolved silently: the
matcher emits no log record, hence no warning. -/
theorem C2_keep_precedence :
    (∀ (labels keep texts : List String) (s e : Nat),
        (s, e) ∈ redactionSpans labels keep texts →
          keep.contains (normLabel (texts.getD (s - 1) "")) = false)
    ∧ (∀ (labels keep : List String) (ws : List Word),
        (redact_line_values_after_label labels keep ws).2 = [])
    ∧ redactionSpans ["Nome:", "Dup:"] ["Dup:"] (lineTexts conflictLineWords) = [(3, 4)] := by
  refine ⟨?_, fun _ _ _ => rfl, by with_unfolding_all decide⟩
  intro labels keep texts s e h
  obtain ⟨i, _, htrig, rfl, _, _, _⟩ := mem_redactionSpans_iff.mp h
  rw [Nat.add_sub_cancel]
  simp only [isTriggerTok, Bool.and_eq_true, Bool.not_eq_true'] at htrig
  exact htrig.2

/-- Witness for C2 (amended): on the conflict line, the span `(3, 4)`
is emitted and the token before it is not a keep label. -/
theorem C2_keep_precedence_witness :
    (["Dup:"] : List String).contains
      (normLabel ((lineTexts conflictLineWords).getD 2 "")) = false :=
  C2_keep_precedence.1 ["Nome:", "Dup:"] ["Dup:"] (lineTexts conflictLineWords) 3 4
    (by with_unfolding_all decide)

/-- C3: on a zero-page document the pipeline raises
`ValueError("PDF must have at least 1 page")`, produces no output
bytes, and its emitted log holds only the two startup records — no
metadata-clearing, redaction, or serialization step has run. -/
theorem C3_empty_document (doc : FitzDoc) (h : doc.pages = []) :
    anonymize_pdf doc =
      (Except.error "PDF must have at least 1 page",
       [⟨LogLevel.info, "Starting PDF anonymization"⟩,
        ⟨LogLevel.info, "PDF page count detected"⟩]) := by
  simp [anonymize_pdf, h]

/-- Witness for C3: the concrete empty document. -/
theorem C3_empty_document_witness :
    anonymize_pdf emptyDoc =
      (Except.error "PDF must have at least 1 page",
       [⟨LogLevel.info, "Starting PDF anonymization"⟩,
        ⟨LogLevel.info, "PDF page count detected"⟩]) :=
  C3_empty_document emptyDoc rfl

/-- C4: a grouped line (with bounding rectangle `rect`) is a signature
candidate for an occurrence rectangle `R` exactly when
`rect.y1 ≤ R.y0`, `R.y0 - rect.y1 ≤ PREVLINE_TOLERANCE` (a gap exactly
equal to the tolerance is included, any strictly larger gap excluded),
`rect.x1 > R.x0 - 50` and `rect.x0 < R.x1 + 50`; among the candidates
one with the smallest vertical gap is selected; and the selected
rectangle is redacted if and only if the concatenated line text
contains no colon. -/
theorem C4_signature_heuristic :
    (∀ (lineRects : List (Rect × List Word)) (R : Rect) (g : ℚ) (rect : Rect)
        (line : List Word),
        ((g, rect, line) ∈ sig_candidates lineRects R ↔
          (rect, line) ∈ lineRects ∧ rect.y1 ≤ R.y0 ∧
            R.y0 - rect.y1 ≤ PREVLINE_TOLERANCE ∧
            rect.x1 > R.x0 - 50 ∧ rect.x0 < R.x1 + 50 ∧ g = R.y0 - rect.y1))
    ∧ (∀ (lineRects : List (Rect × List Word)) (R : Rect) (rect : Rect) (line : List Word),
        select_signature lineRects R = some (rect, line) →
          (R.y0 - rect.y1, rect, line) ∈ sig_candidates lineRects R ∧
            ∀ c ∈ sig_candidates lineRects R, R.y0 - rect.y1 ≤ c.1)
    ∧ (∀ (lineRects : List (Rect × List Word)) (R : Rect) (r : Rect),
        sig_redact_for lineRects R = some r ↔
          ∃ line, select_signature lineRects R = some (r, line) ∧
            (lineText line).contains ':' = false) := by
  refine ⟨?_, fun lineRects R rect line h => select_signature_min h,
          fun lineRects R r => sig_redact_for_eq_some_iff⟩
  intro lineRects R g rect line
  rw [mem_sig_candidates_iff, sigCond_iff]
  tauto

/-- Witness for C4: a line whose gap to the occurrence rectangle is
exactly `PREVLINE_TOLERANCE` is a candidate; raising the occurrence by
one half excludes it; and the selected candidate has the least gap. -/
theorem C4_signature_heuristic_witness :
    ((10 : ℚ), (⟨0, 0, 20, 5⟩ : Rect), [(⟨1, 1, 19, 4, "Dr"⟩ : Word)]) ∈
        sig_candidates [(⟨0, 0, 20, 5⟩, [⟨1, 1, 19, 4, "Dr"⟩])] ⟨0, 15, 10, 20⟩ ∧
    ¬(((21 : ℚ)/2, (⟨0, 0, 20, 5⟩ : Rect), [(⟨1, 1, 19, 4, "Dr"⟩ : Word)]) ∈
        sig_candidates [(⟨0, 0, 20, 5⟩, [⟨1, 1, 19, 4, "Dr"⟩])] ⟨0, 31/2, 10, 20⟩) ∧
    (∀ c ∈ sig_candidates [((⟨0, 0, 20, 5⟩ : Rect), [(⟨1, 1, 19, 4, "Dr"⟩ : Word)])]
        (⟨0, 15, 10, 20⟩ : Rect), (⟨0, 15, 10, 20⟩ : Rect).y0 - (⟨0, 0, 20, 5⟩ : Rect).y1 ≤ c.1) :=
  ⟨(C4_signature_heuristic.1 _ _ _ _ _).mpr
      ⟨by decide, by with_unfolding_all decide, by with_unfolding_all decide,
       by with_unfolding_all decide, by with_unfolding_all decide, by with_unfolding_all decide⟩,
   fun hmem => absurd ((C4_signature_heuristic.1 _ _ _ _ _).mp hmem).2.2.1
      (by with_unfolding_all decide),
   (C4_signature_heuristic.2.1 [(⟨0, 0, 20, 5⟩, [⟨1, 1, 19, 4, "Dr"⟩])] ⟨0, 15, 10, 20⟩
      ⟨0, 0, 20, 5⟩ [⟨1, 1, 19, 4, "Dr"⟩] (by with_unfolding_all decide)).2⟩

/-- C5: the line grouper discards whitespace-only words, sorts the rest
ascending by `(round(y0, 1), x0)`, and walks the sorted sequence with
the midpoint reference update, exactly as the spec states it
(refinement `words_by_line = lineGrouperSpec`); empty input yields an
empty sequence and a single surviving word a single one-word line. -/
theorem C5_line_grouping :
    (∀ ws : List Word, words_by_line ws = lineGrouperSpec ws)
    ∧ (∀ ws : List Word, (sortedWords ws).Pairwise (fun a b => kLe a b = true))
    ∧ (∀ ws : List Word,
        List.Perm (sortedWords ws) (ws.filter (fun w => w.text.trim ≠ "")))
    ∧ words_by_line [] = []
    ∧ (∀ w : Word, w.text.trim ≠ "" → words_by_line [w] = [[w]]) := by
  refine ⟨?_, fun ws => sortBy_pairwise kLe_total kLe_trans _,
          fun ws => sortBy_perm _ _, rfl, ?_⟩
  · intro ws
    rw [words_by_line, lineGrouperSpec, foldl_groupStep_eq_specWalk, List.nil_append]
  · intro w hw
    simp [words_by_line, sortedWords, List.filter, hw, sortBy, ordInsert,
      finishGroups, groupStep]

/-- Witness for C5: a concrete one-word input. -/
theorem C5_line_grouping_witness :
    words_by_line [⟨2, 3, 4, 5, "Ana"⟩] = [[⟨2, 3, 4, 5, "Ana"⟩]] :=
  C5_line_grouping.2.2.2.2 ⟨2, 3, 4, 5, "Ana"⟩ (by with_unfolding_all decide)

set_option maxRecDepth 4000 in
/-- C6 counterexample: the configured tuple `(50, 50, 200, 80)` lies
far outside `[0,1]`, yet the region redactor silently clamps it to the
degenerate page corner rectangle and the pipeline runs to success — no
configuration error is surfaced at startup. -/
theorem C6_out_of_range_counterexample :
    (50, 50, 200, 80) ∈ PAGE1_REDACT_COORDS ∧
    to_abs_rect ⟨0, 0, 612, 792⟩ (50, 50, 200, 80) = ⟨612, 792, 612, 792⟩ ∧
    exceptOk (anonymize_pdf plainSinglePageDoc).1 = true :=
  ⟨by with_unfolding_all decide, by with_unfolding_all decide,
   anonymize_pdf_ok_of_nonempty plainSinglePageDoc blankPage [] rfl⟩

/-- C6 (amended): a configured tuple with all four values in `[0,1]`
is mapped to `page_origin + page_size * fractional` with reversed
coordinate pairs swapped; a tuple with any value outside `[0,1]` is not
rejected but silently clamped componentwise — the mapping factors
through clamping. -/
theorem C6_region_mapping :
    (∀ (bound : Rect) (a b c d : ℚ),
        0 ≤ a → a ≤ 1 → 0 ≤ b → b ≤ 1 → 0 ≤ c → c ≤ 1 → 0 ≤ d → d ≤ 1 →
        to_abs_rect bound (a, b, c, d) =
          ⟨bound.x0 + (bound.x1 - bound.x0) * min a c,
           bound.y0 + (bound.y1 - bound.y0) * min b d,
           bound.x0 + (bound.x1 - bound.x0) * max a c,
           bound.y0 + (bound.y1 - bound.y0) * max b d⟩)
    ∧ (∀ (bound : Rect) (a b c d : ℚ),
        to_abs_rect bound (a, b, c, d) =
          to_abs_rect bound (clamp01 a, clamp01 b, clamp01 c, clamp01 d)) :=
  ⟨fun bound a b c d ha0 ha1 hb0 hb1 hc0 hc1 hd0 hd1 =>
     to_abs_rect_in_range bound a b c d ha0 ha1 hb0 hb1 hc0 hc1 hd0 hd1,
   to_abs_rect_clamp⟩

/-- Witness for C6 (amended): the first configured page-1 region mapped
on a US-letter bound. -/
theorem C6_region_mapping_witness :
    to_abs_rect ⟨0, 0, 612, 792⟩ (35/100, 90/100, 65/100, 95/100) =
      ⟨0 + (612 - 0) * min ((35 : ℚ)/100) (65/100),
       0 + (792 - 0) * min ((90 : ℚ)/100) (95/100),
       0 + (612 - 0) * max ((35 : ℚ)/100) (65/100),
       0 + (792 - 0) * max ((90 : ℚ)/100) (95/100)⟩ :=
  C6_region_mapping.1 ⟨0, 0, 612, 792⟩ (35/100) (90/100) (65/100) (95/100)
    (by norm_num) (by norm_num) (by norm_num) (by norm_num)
    (by norm_num) (by norm_num) (by norm_num) (by norm_num)

/-- C7 (code bug): metadata clearing writes only the transient
`doc.metadata` dictionary attribute and never the persistent Info
dictionary (`set_metadata` is never called), so the serialized
single-page output still carries every standard descriptive field of
the input — here the title and author — while only the XMP stream is
cleared.  This contradicts the docstring "Clear all metadata from PDF
document for privacy" and the completion log line of the function. -/
theorem C7_metadata_bug :
    (∀ doc : FitzDoc, (clear_pdf_metadata doc).1.meta.info = doc.meta.info)
    ∧ (∃ logs, anonymize_pdf docWithMetadata =
        (Except.ok ⟨[OutPage.vector blankPage (page1Annots blankPage)],
          [("title", "ECG Report - Patient Silva"), ("author", "Hospital X")], ""⟩, logs))
    ∧ [("title", "ECG Report - Patient Silva"), ("author", "Hospital X")] ≠
        ([] : List (String × String)) := by
  refine ⟨clear_pdf_metadata_info, ?_, by decide⟩
  refine ⟨[⟨LogLevel.info, "Starting PDF anonymization"⟩,
           ⟨LogLevel.info, "PDF page count detected"⟩]
        ++ ([⟨LogLevel.info, "Processing single-page PDF"⟩]
             ++ (clear_pdf_metadata docWithMetadata).2
             ++ [⟨LogLevel.info, "Single-page PDF anonymization completed"⟩]), ?_⟩
  rw [anonymize_pdf]
  rw [anonymize_single_page_eq docWithMetadata blankPage rfl]
  simp [docWithMetadata]

/-- C8 counterexample: two distinct words sharing the sort key
`(round(y0, 1), x0)` keep their input order through the stable sort, so
permuting them permutes the grouped output: line grouping is not
invariant under reordering of the same word set. -/
theorem C8_order_counterexample :
    List.Perm [wordA, wordB] [wordB, wordA] ∧ wordA ≠ wordB ∧
    words_by_line [wordA, wordB] ≠ words_by_line [wordB, wordA] :=
  ⟨List.Perm.swap wordB wordA [], by decide, by with_unfolding_all decide⟩

/-- C8 (amended): line grouping is invariant under permutations of the
input whenever the sort keys `(round(y0, 1), x0)` are injective on the
words present; with a key collision the stable sort preserves input
order and the groupings can differ. -/
theorem C8_order_invariance (l₁ l₂ : List Word) (hp : List.Perm l₁ l₂)
    (hinj : ∀ a ∈ l₁, ∀ b ∈ l₁, round1 a.y0 = round1 b.y0 → a.x0 = b.x0 → a = b) :
    words_by_line l₁ = words_by_line l₂ := by
  have hsp : List.Perm (sortedWords l₁) (sortedWords l₂) :=
    ((sortBy_perm _ _).trans (hp.filter _)).trans (sortBy_perm _ _).symm
  have heq : sortedWords l₁ = sortedWords l₂ := by
    refine perm_pairwise_eq hsp ?_ (sortBy_pairwise kLe_total kLe_trans _)
      (sortBy_pairwise kLe_total kLe_trans _)
    intro a ha b hb h1 h2
    have ha' : a ∈ l₁ := List.mem_of_mem_filter ((sortBy_perm _ _).mem_iff.mp ha)
    have hb' : b ∈ l₁ := List.mem_of_mem_filter ((sortBy_perm _ _).mem_iff.mp hb)
    obtain ⟨hk1, hk2⟩ := kLe_antisymm_key h1 h2
    exact hinj a ha' b hb' hk1 hk2
  rw [words_by_line, words_by_line, heq]

/-- Witness for C8 (amended): two words with distinct `x0` keys,
swapped. -/
theorem C8_order_invariance_witness :
    words_by_line [wordA, ⟨5, 0, 6, 1, "b"⟩] = words_by_line [⟨5, 0, 6, 1, "b"⟩, wordA] :=
  C8_order_invariance [wordA, ⟨5, 0, 6, 1, "b"⟩] [⟨5, 0, 6, 1, "b"⟩, wordA]
    (List.Perm.swap ⟨5, 0, 6, 1, "b"⟩ wordA []) (by with_unfolding_all decide)

/-- C9: all per-page rule evaluation is total — every grouped line is
non-empty, so every word-range bounding rectangle the label matcher and
the registration-token pass compute is over a non-empty range (no
empty-`min`/`max` failure), and the full-line rectangles used by the
signature heuristic always exist. -/
theorem C9_totality :
    (∀ ws : List Word, ∀ l ∈ words_by_line ws, l ≠ [])
    ∧ (∀ (labels keep : List String) (ws : List Word),
        ∀ o ∈ (redact_line_values_after_label labels keep ws).1, o.isSome = true)
    ∧ (∀ (ws : List Word) (hits : List Rect),
        ∀ o ∈ (redact_crm_and_upper_name ws hits).1, o.isSome = true)
    ∧ (∀ ws : List Word, ∀ l ∈ words_by_line ws,
        (rect_of_words l 0 l.length).isSome = true) := by
  refine ⟨fun ws => words_by_line_ne_nil, ?_, ?_, ?_⟩
  · intro labels keep ws o ho
    obtain ⟨line, hline, hospan⟩ := List.mem_flatMap.mp ho
    obtain ⟨⟨s, e⟩, hse, rfl⟩ := List.mem_map.mp hospan
    obtain ⟨i, hi, _, rfl, hs, _, hse'⟩ := mem_redactionSpans_iff.mp hse
    refine rect_of_words_isSome ?_ hse'
    simpa [lineTexts] using hs
  · intro ws hits o ho
    obtain ⟨line, hline, ho'⟩ := List.mem_flatMap.mp ho
    obtain ⟨i, hir, ho''⟩ := List.mem_filterMap.mp ho'
    by_cases hcrm : CRM_TOKENS.contains ((lineTexts line).getD i "").trim = true
    · rw [if_pos hcrm] at ho''
      injection ho'' with ho''
      subst ho''
      exact rect_of_words_isSome (List.mem_range.mp hir) (List.mem_range.mp hir)
    · rw [if_neg hcrm] at ho''
      cases ho''
  · intro ws l hl
    have hne := words_by_line_ne_nil l hl
    exact rect_of_words_isSome (List.length_pos.mpr hne) (List.length_pos.mpr hne)

/-- Witness for C9: the singleton page. -/
theorem C9_totality_witness :
    [wordA] ≠ ([] : List Word) ∧ (rect_of_words [wordA] 0 1).isSome = true :=
  ⟨C9_totality.1 [wordA] [wordA] (by with_unfolding_all decide),
   C9_totality.2.2.2 [wordA] [wordA] (by with_unfolding_all decide)⟩

/-- C10: on every document with at least two pages the pipeline
succeeds and the output has exactly two pages — the vector-redacted
copy of page 1 and the rasterized redacted page 2 — and both the output
and the emitted behaviour are identical to those for the document
truncated to its first two pages: pages 3 and beyond are silently
discarded, with no warning or error about them. -/
theorem C10_two_page_output (doc : FitzDoc) (p1 p2 : Page) (rest : List Page)
    (h : doc.pages = p1 :: p2 :: rest) :
    (∃ logs, anonymize_pdf doc =
       (Except.ok ⟨[OutPage.vector p1 (page1Annots p1),
                    OutPage.raster p2 DPI_PAGE2_RENDER PAGE2_REDACT_COORDS], [], ""⟩, logs))
    ∧ anonymize_pdf doc = anonymize_pdf ⟨[p1, p2], doc.meta, doc.metaDict⟩ := by
  have h1 := anonymize_multi_page_eq doc p1 p2 rest h
  have h2 := anonymize_multi_page_eq ⟨[p1, p2], doc.meta, doc.metaDict⟩ p1 p2 [] rfl
  constructor
  · refine ⟨[⟨LogLevel.info, "Starting PDF anonymization"⟩,
             ⟨LogLevel.info, "PDF page count detected"⟩]
          ++ ([⟨LogLevel.info, "Processing multi-page PDF"⟩]
               ++ (clear_pdf_metadata ⟨[], ⟨[], ""⟩, []⟩).2
               ++ [⟨LogLevel.info, "Multi-page PDF anonymization completed"⟩]), ?_⟩
    rw [anonymize_pdf, h1]
    simp [h]
  · rw [anonymize_pdf, anonymize_pdf, h1, h2]
    simp [h]

/-- Witness for C10: the concrete three-page document. -/
theorem C10_two_page_output_witness :
    (∃ logs, anonymize_pdf threePageDoc =
       (Except.ok ⟨[OutPage.vector blankPage (page1Annots blankPage),
                    OutPage.raster ⟨[], ⟨0, 0, 612, 792⟩, []⟩ DPI_PAGE2_RENDER
                      PAGE2_REDACT_COORDS], [], ""⟩, logs))
    ∧ anonymize_pdf threePageDoc =
        anonymize_pdf ⟨[blankPage, ⟨[], ⟨0, 0, 612, 792⟩, []⟩],
          threePageDoc.meta, threePageDoc.metaDict⟩ :=
  C10_two_page_output threePageDoc blankPage ⟨[], ⟨0, 0, 612, 792⟩, []⟩
    [⟨[⟨1, 1, 2, 2, "x"⟩], ⟨0, 0, 612, 792⟩, []⟩] rfl
